import Mathlib

/-!
Verification of the mcphub semantic tool-discovery engine and its storage
layer: a shallow embedding, in Lean 4, of the similarity-threshold heuristic,
vector-index strategy selection, dimension reconciliation, the fallback
embedding, the database retry executor, and the search/describe protocol
handlers, each translated from the TypeScript source
(`src/services/vectorSearchService.ts`, `src/services/smartRoutingService.ts`,
`src/utils/dbRetry.ts`), together with theorems settling the specified
properties.

Faithfulness notes for the embedding as a whole:
- JavaScript numbers that the code uses for thresholds and vector entries are
  exact decimals here (`ℚ`); no rounding behaviour of floats is relied on by
  the translated code paths.
- `String.length` counts characters; the queries involved are ASCII so this
  agrees with the UTF-16 lengths JavaScript computes.
- External collaborators that the source receives by injection
  (`filterToolsByConfig`, `filterToolsByGroup`, `getServersInGroup`, the
  server DAO and the similarity repository) are parameters of the embedding,
  exactly as `smartRoutingService.ts` holds them as injected references.
-/

/-! ## Similarity-threshold heuristic (smartRoutingService.handleSearchToolsRequest) -/

/-- Substring test on character lists: `containsChars n h` is true when the
character list `n` occurs contiguously inside `h` (JavaScript
`String.prototype.includes`). -/
def containsChars (needle : List Char) : List Char → Bool
  | [] => needle.isEmpty
  | c :: rest => (needle.isPrefixOf (c :: rest)) || containsChars needle rest

/-- JavaScript `haystack.includes(needle)` on Lean strings. -/
def jsIncludes (haystack needle : String) : Bool :=
  containsChars needle.toList haystack.toList

/-- JavaScript `s.startsWith(p)` on Lean strings, computed on the character
lists. -/
def jsStartsWith (s p : String) : Bool :=
  p.toList.isPrefixOf s.toList

/-- JavaScript `s.substring(n)` (for `n` within bounds) on Lean strings:
drop the first `n` characters. -/
def jsDropChars (s : String) (n : Nat) : String :=
  String.mk (s.toList.drop n)

/-- JavaScript `s.split(' ')`: split at every single space character, keeping
empty pieces (so `"a  b"` gives three pieces and `""` gives one). This is what
Lean's `String.split` on `(· = ' ')` computes. -/
def jsSplitSpace (s : String) : List String :=
  s.split (fun c => c = ' ')

/-- The dynamic similarity-threshold computation of
`handleSearchToolsRequest` (smartRoutingService.ts): start from the default
`0.3`; a query of fewer than 10 characters or at most 2 space-separated
pieces lowers it to `0.2`; afterwards a query of more than 30 characters or
containing `"specific"` or `"exact"` raises it to `0.4` — the second rule
overwrites the first when both apply, because the source assigns
`thresholdNum` in two consecutive `if` statements. -/
def computeThreshold (query : String) : ℚ :=
  let t : ℚ := 3 / 10
  let t := if query.length < 10 || (jsSplitSpace query).length ≤ 2 then 2 / 10 else t
  if query.length > 30 || jsIncludes query "specific" || jsIncludes query "exact"
    then 4 / 10 else t

/-- The threshold policy as the specification words it, with the long/precise
rule given priority over the short/few-word rule (the order the code's two
consecutive assignments induce). Used to compare the source heuristic against
the spec sentence of the corrected claim. -/
def specThreshold (query : String) : ℚ :=
  if query.length > 30 || jsIncludes query "specific" || jsIncludes query "exact"
    then 4 / 10
  else if query.length < 10 || (jsSplitSpace query).length ≤ 2 then 2 / 10
  else 3 / 10

/-! ## Vector index strategy (vectorSearchService.createVectorIndex) -/

/-- pgvector ceiling for the plain `vector` type (HNSW / IVFFlat). -/
def VECTOR_MAX_DIMENSIONS : Nat := 2000

/-- pgvector ceiling for the `halfvec` type. -/
def HALFVEC_MAX_DIMENSIONS : Nat := 4000

/-- Which DDL statements the backing store accepts: one flag per `CREATE
INDEX` shape that `createVectorIndex` can issue (`hnsw` on `vector`,
`ivfflat` on `vector`, `hnsw` on a `halfvec` cast). A `false` flag models the
corresponding query throwing. -/
structure IndexOracle where
  hnswOk : Bool
  ivfflatOk : Bool
  halfvecOk : Bool

/-- Result shape of `createVectorIndex`: `success`, the `indexType` string or
`null`, mirroring the returned object (the human-readable `message` field is
not modelled). -/
structure IndexResult where
  success : Bool
  indexType : Option String
deriving DecidableEq, Repr

/-- `createVectorIndex(dataSource, dimensions)` of vectorSearchService.ts.
For `dimensions ≤ 2000` try HNSW, falling back to IVFFlat, else no index; for
`2000 < dimensions ≤ 4000` try HNSW over a `halfvec` cast, else no index
(with an operator warning, not modelled); for `dimensions > 4000` attempt
nothing and report no index. The preliminary `DROP INDEX IF EXISTS` is
ignored-on-error in the source and has no bearing on the result. -/
def createVectorIndex (oracle : IndexOracle) (dimensions : Nat) : IndexResult :=
  if dimensions ≤ VECTOR_MAX_DIMENSIONS then
    if oracle.hnswOk then { success := true, indexType := some "hnsw" }
    else if oracle.ivfflatOk then { success := true, indexType := some "ivfflat" }
    else { success := false, indexType := none }
  else if dimensions ≤ HALFVEC_MAX_DIMENSIONS then
    if oracle.halfvecOk then { success := true, indexType := some "hnsw-halfvec" }
    else { success := false, indexType := none }
  else { success := false, indexType := none }

/-! ## Retry executor (utils/dbRetry.ts) -/

/-- The shape of the error values `isRetryableDbError` inspects: an optional
`code`, `errno`, `message`, and an optional nested TypeORM `driverError`
carrying its own `code` and `message`. A JavaScript value that is not an
object is not represented; the function returns false for those and the
embedding only ever classifies objects. -/
structure DriverError where
  code : Option String
  message : Option String

/-- An error object as seen by `isRetryableDbError` / `withDbRetry`. -/
structure DbError where
  code : Option String
  errno : Option String
  message : Option String
  driverError : Option DriverError

/-- `RETRYABLE_ERROR_CODES` of dbRetry.ts. -/
def RETRYABLE_ERROR_CODES : List String :=
  ["ECONNRESET", "ECONNREFUSED", "ETIMEDOUT", "ENOTFOUND", "ENETUNREACH",
   "EHOSTUNREACH", "EPIPE", "EAI_AGAIN", "PROTOCOL_CONNECTION_LOST",
   "ER_CON_COUNT_ERROR", "57P01", "57P02", "57P03", "08000", "08003",
   "08006", "08001", "08004"]

/-- `RETRYABLE_ERROR_PATTERNS` of dbRetry.ts: every pattern there is a
sequence of literal fragments joined by `.*` under the `i` flag, so each is
represented by its fragment list (e.g. `/socket.*hang.*up/i` becomes
`["socket", "hang", "up"]`). -/
def RETRYABLE_ERROR_PATTERNS : List (List String) :=
  [["connection", "reset"], ["connection", "closed"], ["connection", "lost"],
   ["connection", "terminated"], ["connection", "refused"],
   ["connection", "timeout"], ["connection", "failed"], ["network", "error"],
   ["socket", "hang", "up"], ["read", "econnreset"], ["write", "econnreset"],
   ["cannot", "connect"], ["server", "closed"], ["client", "closed"],
   ["pool", "exhausted"], ["too", "many", "connections"],
   ["database", "unavailable"]]

/-- After the first occurrence of `needle` in `hay`, the remaining
characters; `none` when `needle` does not occur. -/
def dropAfterFirst (needle : List Char) : List Char → Option (List Char)
  | [] => if needle.isEmpty then some [] else none
  | c :: rest =>
    if needle.isPrefixOf (c :: rest) then some ((c :: rest).drop needle.length)
    else dropAfterFirst needle rest

/-- A `/f₁.*f₂.*…/` regex test: the fragments occur in order, each after the
previous one ends. -/
def seqContains : List (List Char) → List Char → Bool
  | [], _ => true
  | f :: fs, hay =>
    match dropAfterFirst f hay with
    | some rest => seqContains fs rest
    | none => false

/-- Case-insensitive match of one fragment-list pattern against a message
(the `i` flag folds both sides to lower case). -/
def matchesPattern (fragments : List String) (message : String) : Bool :=
  seqContains (fragments.map (fun f => f.toList.map Char.toLower))
    (message.toList.map Char.toLower)

/-- Whether any retryable message pattern matches. -/
def matchesAnyPattern (message : String) : Bool :=
  RETRYABLE_ERROR_PATTERNS.any (fun p => matchesPattern p message)

/-- `isRetryableDbError` of dbRetry.ts: the error's `code`, `errno`, or
nested driver `code` belongs to the retryable code set, or its `message` or
nested driver `message` matches a retryable pattern. -/
def isRetryableDbError (e : DbError) : Bool :=
  (match e.code with
   | some c => RETRYABLE_ERROR_CODES.contains c
   | none => false) ||
  (match e.errno with
   | some c => RETRYABLE_ERROR_CODES.contains c
   | none => false) ||
  (match e.driverError with
   | some d =>
     (match d.code with
      | some c => RETRYABLE_ERROR_CODES.contains c
      | none => false)
   | none => false) ||
  (match e.message with
   | some m => matchesAnyPattern m
   | none => false) ||
  (match e.driverError with
   | some d =>
     (match d.message with
      | some m => matchesAnyPattern m
      | none => false)
   | none => false)

/-- The attempt loop of `withDbRetry`, with the operation modelled as a
function from the 1-based attempt number to its outcome. `fuel` is the number
of loop iterations still permitted (the source's `for` bound); the result
carries the outcome together with how many times the operation was invoked.
On a failure at attempt `a` the source rethrows when `a > maxRetries` or the
error is not retryable, and otherwise sleeps and retries. -/
def withDbRetryGo (op : Nat → Except DbError α) (maxRetries : Nat) :
    Nat → Nat → Except DbError α × Nat
  | _, 0 => (.error ⟨none, none, some "unreachable", none⟩, 0)
  | attempt, fuel + 1 =>
    match op attempt with
    | .ok a => (.ok a, 1)
    | .error e =>
      if attempt > maxRetries || !isRetryableDbError e then (.error e, 1)
      else
        let r := withDbRetryGo op maxRetries (attempt + 1) fuel
        (r.1, r.2 + 1)

/-- `withDbRetry(operation, options)` of dbRetry.ts, at a given `maxRetries`:
runs the attempt loop `for attempt = 1 .. maxRetries + 1`, returning the
first success or the error that ends the loop, paired with the number of
invocations actually made. Backoff delays, jitter and the `onRetry` callback
do not influence the outcome or the attempt count and are not modelled. -/
def withDbRetry (op : Nat → Except DbError α) (maxRetries : Nat) :
    Except DbError α × Nat :=
  withDbRetryGo op maxRetries 1 (maxRetries + 1)

/-! ## Fallback embedding (vectorSearchService.generateFallbackEmbedding) -/

/-- Whitespace per the JavaScript `\s` class, restricted to the ASCII range
(the texts involved are ASCII): space, tab, line feed, carriage return,
vertical tab, form feed. -/
def jsIsWs (c : Char) : Bool :=
  c = ' ' || c = '\t' || c = '\n' || c = '\x0d' || c = '\x0b' || c = '\x0c'

/-- One step of the `/\s+/` split scanner over the character list:
`inRun` records whether the previous character was whitespace (a run in
progress swallows further whitespace), `cur` is the piece being built
(reversed), `acc` the finished pieces (reversed). -/
def jsSplitWsGo : List Char → Bool → List Char → List String → List String
  | [], _, cur, acc => ((String.mk cur.reverse) :: acc).reverse
  | c :: rest, inRun, cur, acc =>
    if jsIsWs c then
      if inRun then jsSplitWsGo rest true cur acc
      else jsSplitWsGo rest true [] ((String.mk cur.reverse) :: acc)
    else jsSplitWsGo rest false (c :: cur) acc

/-- JavaScript `s.split(/\s+/)`: pieces between maximal whitespace runs, with
an empty leading piece when the string starts with whitespace, an empty
trailing piece when it ends with whitespace, and `[""]` for the empty
string. -/
def jsSplitWs (s : String) : List String :=
  jsSplitWsGo s.toList false [] []

/-- JavaScript `toLowerCase` as the character-wise fold (the texts involved
are ASCII, where the JavaScript and per-character foldings agree). -/
def jsToLower (s : String) : String :=
  String.mk (s.toList.map Char.toLower)

/-- The fallback vector length (`FALLBACK_DIMENSIONS`). -/
def FALLBACK_DIMENSIONS : Nat := 100

/-- The fixed domain-keyword vocabulary of `generateFallbackEmbedding`. -/
def fallbackVocabulary : List String :=
  ["search", "find", "get", "fetch", "retrieve", "query", "map", "location",
   "weather", "file", "directory", "email", "message", "send", "create",
   "update", "delete", "browser", "web", "page", "click", "navigate",
   "screenshot", "automation", "database", "table", "record", "insert",
   "select", "schema", "data", "image", "photo", "video", "media", "upload",
   "download", "convert", "text", "document", "pdf", "excel", "word",
   "format", "parse", "api", "rest", "http", "request", "response", "json",
   "xml", "time", "date", "calendar", "schedule", "reminder", "clock",
   "math", "calculate", "number", "sum", "average", "statistics", "user",
   "account", "login", "auth", "permission", "role"]

/-- `word.split('').reduce((a, b) => a + b.charCodeAt(0), 0)`: the sum of the
character codes of a word. -/
def wordHash (w : String) : Nat :=
  w.toList.foldl (fun a c => a + c.toNat) 0

/-- Add `delta` to entry `i` of the vector (`vector[i] += delta`). -/
def bumpAt (v : List ℚ) (i : Nat) (delta : ℚ) : List ℚ :=
  v.set i (v.getD i 0 + delta)

/-- The per-word update of the fallback embedding loop: increment the
vocabulary dimension when the word is a vocabulary entry whose index fits in
the vector (`indexOf` returns the list length when absent, mirroring the
source's `index >= 0` test on JavaScript's `-1`), then add `0.1` at the
word-hash position modulo the vector length. -/
def fallbackStep (v : List ℚ) (w : String) : List ℚ :=
  let idx := fallbackVocabulary.indexOf w
  let v := if idx < fallbackVocabulary.length && idx < v.length
    then bumpAt v idx 1 else v
  bumpAt v (wordHash w % v.length) (1 / 10)

/-- The raw (pre-normalization) vector of
`generateFallbackEmbedding(text)`: lower-case the text, split it on
whitespace runs, and fold the per-word update over a zero vector of length
100. -/
def generateFallbackEmbeddingRaw (text : String) : List ℚ :=
  (jsSplitWs (jsToLower text)).foldl fallbackStep (List.replicate FALLBACK_DIMENSIONS 0)

/-- `vector.reduce((sum, val) => sum + val * val, 0)`: the squared L2
magnitude of a vector. -/
def sumSq (v : List ℚ) : ℚ :=
  v.foldl (fun s x => s + x * x) 0

/-- The full fallback embedding over the reals: divide every raw entry by the
magnitude `√(sumSq)` unless the magnitude is zero, in which case the raw
(zero) vector is returned unchanged — the final branch of
`generateFallbackEmbedding`. Stated as a relation so the construction stays
executable on the rational raw vector; `generateFallbackEmbedding t r` holds
exactly of the vector `r` the source returns for `t`. -/
def generateFallbackEmbedding (text : String) (r : List ℝ) : Prop :=
  r =
    if Real.sqrt ((sumSq (generateFallbackEmbeddingRaw text) : ℚ) : ℝ) = 0 then
      (generateFallbackEmbeddingRaw text).map (fun x => ((x : ℚ) : ℝ))
    else
      (generateFallbackEmbeddingRaw text).map
        (fun x => ((x : ℚ) : ℝ) /
          Real.sqrt ((sumSq (generateFallbackEmbeddingRaw text) : ℚ) : ℝ))

/-! ## Vector store state and dimension reconciliation
(vectorSearchService.checkDatabaseVectorDimensions / clearMismatchedVectorData) -/

/-- A JSON-schema object as the discovery engine manipulates it: the
top-level key/value entries (values opaque strings) and the names of the
entries of its `properties` sub-object. Keys are unique, as in a JavaScript
object. -/
structure JsonSchema where
  entries : List (String × String)
  props : List String
deriving DecidableEq, Repr

/-- One row of the `vector_embeddings` table, with the fields the translated
code reads: entity kind and key, the searchable text, the embedding, its
`dimensions` column, and the producing model. -/
structure StoredEmbedding where
  kind : String
  key : String
  text : String
  embedding : List ℚ
  dims : Nat
  model : String
deriving DecidableEq, Repr

/-- The store state the dimension-reconciliation code manipulates: the
declared width of the `embedding` column (`none` when the column carries no
type modifier, i.e. `atttypmod = -1`), the stored rows, and the index type
currently in place. -/
structure VectorStore where
  colDims : Option Nat
  records : List StoredEmbedding
  indexType : Option String
deriving DecidableEq, Repr

/-- The most common `dimensions` value among the stored rows — the first row
of the source's `GROUP BY dimensions, model ORDER BY count DESC` probe — or
`0` when the table is empty. SQL leaves the order of tied counts
unspecified; this embedding resolves ties towards the value seen first,
which no theorem below depends on. -/
def mostCommonDims (rs : List StoredEmbedding) : Nat :=
  let dims := (rs.map (fun r => r.dims)).dedup
  (dims.foldl
    (fun best d =>
      let c := (rs.filter (fun r => r.dims = d)).length
      if c > best.2 then (d, c) else best)
    (0, 0)).1

/-- The `currentDimensions` value `checkDatabaseVectorDimensions` computes:
the column's declared width when one is configured, otherwise the most
common `dimensions` value among the stored records (`0` when the table is
empty) — the source's fallback "check the dimensions stored in actual
records". -/
def currentConfiguredDims (store : VectorStore) : Nat :=
  match store.colDims with
  | some w => w
  | none => mostCommonDims store.records

/-- `clearMismatchedVectorData(expectedDimensions)`: `DELETE FROM
vector_embeddings WHERE dimensions != $1`, keeping exactly the rows whose
`dimensions` equals the expected value. -/
def clearMismatchedVectorData (store : VectorStore) (expectedDimensions : Nat) :
    VectorStore :=
  { store with records := store.records.filter (fun r => r.dims = expectedDimensions) }

/-- `checkDatabaseVectorDimensions(dimensionsNeeded)` of
vectorSearchService.ts: read the configured width (schema metadata, falling
back to the stored records); when it is `0` or differs from the needed
width, delete the mismatched rows (skipped in the first-time case of width
`0`), alter the column to `vector(dimensionsNeeded)`, and rebuild the index
via `createVectorIndex` (whose failure is tolerated). When the widths agree
the store is untouched. The `ALTER TABLE` is modelled as always succeeding;
its failure would abort the enclosing save, which no claim here concerns. -/
def checkDatabaseVectorDimensions (oracle : IndexOracle) (store : VectorStore)
    (dimensionsNeeded : Nat) : VectorStore :=
  let current := currentConfiguredDims store
  if current = 0 || current ≠ dimensionsNeeded then
    let store := if current = 0 then store
      else clearMismatchedVectorData store dimensionsNeeded
    { store with
      colDims := some dimensionsNeeded,
      indexType := (createVectorIndex oracle dimensionsNeeded).indexType }
  else store

/-! ## Saving tool embeddings (vectorSearchService.saveToolsAsVectorEmbeddings) -/

/-- A tool as listed by a backend: name, description, input schema. -/
structure Tool where
  name : String
  description : String
  inputSchema : JsonSchema
deriving DecidableEq, Repr

/-- The searchable text `saveToolsAsVectorEmbeddings` builds for a tool:
name, description, the schema's top-level keys other than `type` and
`properties`, and the names of the schema's properties, with empty pieces
dropped (`.filter(Boolean)`) and the rest joined by single spaces. -/
def toolSearchableText (tool : Tool) : String :=
  String.intercalate " "
    (([tool.name, tool.description] ++
      (tool.inputSchema.entries.map Prod.fst).filter
        (fun k => k ≠ "type" && k ≠ "properties") ++
      tool.inputSchema.props).filter (fun s => s ≠ ""))

/-- Modelled from the spec: `VectorEmbeddingRepository.saveEmbedding` is not
among the provided sources (only its caller is); §4.3 specifies `upsert(kind,
key, text, vector, metadata, model)`: "writes/replaces the record keyed by
`(kind, key)`", with the `dimensions` column duplicating the vector's
length (§3). Replaces in place when the `(kind, key)` pair exists, appends
otherwise. -/
def saveEmbedding (store : VectorStore) (kind key text : String)
    (embedding : List ℚ) (model : String) : VectorStore :=
  let row : StoredEmbedding :=
    { kind := kind, key := key, text := text, embedding := embedding,
      dims := embedding.length, model := model }
  let replaced := store.records.map
    (fun r => if r.kind = kind && r.key = key then row else r)
  if store.records.any (fun r => r.kind = kind && r.key = key) then
    { store with records := replaced }
  else { store with records := store.records ++ [row] }

/-- The per-tool loop of `saveToolsAsVectorEmbeddings`: for each tool, embed
its searchable text (`embedFn`, the call to `generateEmbedding`, whose API
errors propagate), reconcile the store's dimensions, and upsert the row
keyed `serverName:toolName`. The loop runs inside the function's single
`try`: the first error ends it, keeping the store as already written. -/
def saveToolsLoop (embedFn : String → Except String (List ℚ))
    (oracle : IndexOracle) (embeddingModel serverName : String) :
    List Tool → VectorStore → VectorStore
  | [], store => store
  | tool :: rest, store =>
    let text := toolSearchableText tool
    match embedFn text with
    | .error _ => store
    | .ok embedding =>
      let store := checkDatabaseVectorDimensions oracle store embedding.length
      let store := saveEmbedding store "tool" (serverName ++ ":" ++ tool.name)
        text embedding embeddingModel
      saveToolsLoop embedFn oracle embeddingModel serverName rest store

/-- `saveToolsAsVectorEmbeddings(serverName, tools)` of
vectorSearchService.ts, with smart routing enabled and the database
initialized: an empty tool list is a no-op, and otherwise the per-tool loop
runs under the function's single catch-all, which logs and returns — so an
error inside the loop leaves the rows written so far and never propagates to
the caller. -/
def saveToolsAsVectorEmbeddings (embedFn : String → Except String (List ℚ))
    (oracle : IndexOracle) (embeddingModel serverName : String)
    (tools : List Tool) (store : VectorStore) : VectorStore :=
  if tools.isEmpty then store
  else saveToolsLoop embedFn oracle embeddingModel serverName tools store

/-! ## Similarity search (vectorSearchService.searchToolsByVector) -/

/-- The parsed `metadata` JSON stored with an embedding row: backend name,
tool name, description and input schema, as written by
`saveToolsAsVectorEmbeddings`. An absent JavaScript field is modelled by the
empty string / empty schema, matching the truthiness tests the code
performs. -/
structure ToolMeta where
  serverName : String
  toolName : String
  description : String
  inputSchema : JsonSchema
deriving DecidableEq, Repr

/-- One repository hit as `searchByText` returns it: the row's metadata
(`none` when the stored metadata is not a string or fails `JSON.parse`), the
row's searchable text, and the cosine similarity. -/
structure RawHit where
  metadata : Option ToolMeta
  textContent : String
  similarity : ℚ
deriving DecidableEq, Repr

/-- One element of `searchToolsByVector`'s result. -/
structure ToolHit where
  serverName : String
  toolName : String
  description : String
  inputSchema : JsonSchema
  similarity : ℚ
  searchableText : String
deriving DecidableEq, Repr

/-- JavaScript `String.prototype.trim` restricted to ASCII whitespace. -/
def jsTrim (s : String) : String :=
  String.mk (((s.toList.dropWhile jsIsWs).reverse.dropWhile jsIsWs).reverse)

/-- The `/^(\S+)/` extraction: the leading maximal run of non-whitespace
characters, empty when the text is empty or starts with whitespace (no
match, `toolName = ''`). -/
def extractToolName (text : String) : String :=
  String.mk (text.toList.takeWhile (fun c => !jsIsWs c))

/-- The `/^([^_]+)_/` extraction over a tool name: the characters before the
first underscore when the name has the shape `server_toolPart`, and
`"unknown"` when there is no underscore or nothing before it. -/
def extractServerName (toolName : String) : String :=
  let pre := toolName.toList.takeWhile (fun c => c ≠ '_')
  let rest := toolName.toList.drop pre.length
  if !pre.isEmpty && !rest.isEmpty then String.mk pre else "unknown"

/-- `textContent.replace(/^\S+\s*/, '').trim()`: drop the leading word and
the whitespace after it when the text starts with a non-whitespace character
(the anchored pattern fails otherwise, replacing nothing), then trim. -/
def extractDescription (text : String) : String :=
  match text.toList with
  | [] => ""
  | c :: _ =>
    if jsIsWs c then jsTrim text
    else jsTrim (String.mk
      ((text.toList.dropWhile (fun c => !jsIsWs c)).dropWhile jsIsWs))

/-- The per-hit transformation of `searchToolsByVector`: a hit whose
metadata parsed and carries a (truthy) server and tool name becomes a
structured result; otherwise the tool name, server name and description are
recovered from the row's `text_content` and the schema defaults to empty. -/
def transformHit (h : RawHit) : ToolHit :=
  let fallback : ToolHit :=
    let toolName := extractToolName h.textContent
    { serverName := extractServerName toolName, toolName := toolName,
      description := extractDescription h.textContent,
      inputSchema := { entries := [], props := [] },
      similarity := h.similarity, searchableText := h.textContent }
  match h.metadata with
  | some m =>
    if m.serverName ≠ "" && m.toolName ≠ "" then
      { serverName := m.serverName, toolName := m.toolName,
        description := m.description, inputSchema := m.inputSchema,
        similarity := h.similarity, searchableText := h.textContent }
    else fallback
  | none => fallback

/-- The `serverNames` filter of `searchToolsByVector`: applied only when a
list was supplied **and** it is non-empty (`serverNames &&
serverNames.length > 0`); a hit passes when its metadata parsed and names a
server in the list. -/
def filterHitsByServerNames (serverNames : Option (List String))
    (results : List RawHit) : List RawHit :=
  match serverNames with
  | some l =>
    if l.length > 0 then
      results.filter (fun h =>
        match h.metadata with
        | some m => l.contains m.serverName
        | none => false)
    else results
  | none => results

/-- The body of `searchToolsByVector` inside its `try`: the repository
lookup (`searchByText`, which also runs the query embedding and the
similarity thresholding — its failure, from any of those, is the `.error`
case), the server-name filter, and the per-hit transformation. -/
def searchToolsByVectorBody (repoResult : Except String (List RawHit))
    (serverNames : Option (List String)) : Except String (List ToolHit) :=
  match repoResult with
  | .error e => .error e
  | .ok results => .ok ((filterHitsByServerNames serverNames results).map transformHit)

/-- `searchToolsByVector(query, limit, threshold, serverNames)` of
vectorSearchService.ts: the body under the function's catch-all, which turns
any error into the empty result list, so the function itself never throws. -/
def searchToolsByVector (repoResult : Except String (List RawHit))
    (serverNames : Option (List String)) : List ToolHit :=
  match searchToolsByVectorBody repoResult serverNames with
  | .ok r => r
  | .error _ => []

/-! ## Discovery protocol handlers (smartRoutingService.ts) -/

/-- `cleanInputSchema`: shallow-copy the schema and `delete` its `$schema`
key. -/
def cleanInputSchema (s : JsonSchema) : JsonSchema :=
  { s with entries := s.entries.filter (fun kv => kv.1 ≠ "$schema") }

/-- A backend as `getServerInfos()` lists it: name, connection status
(`connected` models `status === 'connected'`), enabled flag (`enabled !==
false`), and its live tool catalog. -/
structure ServerInfo where
  name : String
  connected : Bool
  enabled : Bool
  tools : List Tool
deriving DecidableEq, Repr

/-- The collaborators `smartRoutingService.ts` reaches through injected
references and imports, as the handlers consume them: the live catalog, the
group-membership lookup (`getServersInGroup`; `none` models `undefined`,
group not found), the configuration-enabled filter
(`filterToolsByConfig` on a one-tool list, by backend and tool name), the
group-visibility filter (`filterToolsByGroup` on a one-tool list; the group
argument is the empty string when the code would pass a falsy group), the
custom-description lookup (`getServerDao().findById(server)?.tools?.[tool]
?.description`), and the progressive-disclosure flag. -/
structure SmartEnv where
  serverInfos : List ServerInfo
  serversInGroup : String → Option (List String)
  toolConfigEnabled : String → String → Bool
  groupVisible : String → String → String → Bool
  customDescription : String → String → Option String
  progressiveDisclosure : Bool

/-- `toolConfig?.description || actualTool.description`: the configured
custom description when present and truthy, the tool's own otherwise. -/
def applyCustomDescription (custom : Option String) (fallbackDesc : String) : String :=
  match custom with
  | some d => if d = "" then fallbackDesc else d
  | none => fallbackDesc

/-- One entry of the search response's `tools` array: `inputSchema` is
`none` when the object carries no such field (progressive-disclosure
results). -/
structure OutTool where
  name : String
  description : String
  inputSchema : Option JsonSchema
  serverName : String
deriving DecidableEq, Repr

/-- The per-hit resolution step of `handleSearchToolsRequest`: re-resolve
the live tool by backend and tool name from the catalog (connected, enabled,
non-empty tool list), keep it only when the configuration filter keeps it,
and emit name+description (progressive) or the live tool spread with its
schema untouched (standard); when the backend or tool is missing or
config-disabled, fall back to the stale hit itself — name, description, and
in standard mode the hit's schema with `$schema` stripped. -/
def resolveHit (env : SmartEnv) (hit : ToolHit) : OutTool :=
  let fallback : OutTool :=
    if env.progressiveDisclosure then
      { name := hit.toolName, description := hit.description,
        inputSchema := none, serverName := hit.serverName }
    else
      { name := hit.toolName, description := hit.description,
        inputSchema := some (cleanInputSchema hit.inputSchema),
        serverName := hit.serverName }
  match env.serverInfos.find?
      (fun s => s.name = hit.serverName && s.connected && s.enabled) with
  | some server =>
    if server.tools.length > 0 then
      match server.tools.find? (fun t => t.name = hit.toolName) with
      | some actualTool =>
        if env.toolConfigEnabled server.name actualTool.name then
          let desc := applyCustomDescription
            (env.customDescription server.name actualTool.name)
            actualTool.description
          if env.progressiveDisclosure then
            { name := actualTool.name, description := desc,
              inputSchema := none, serverName := hit.serverName }
          else
            { name := actualTool.name, description := desc,
              inputSchema := some actualTool.inputSchema,
              serverName := hit.serverName }
        else fallback
      | none => fallback
    else fallback
  | none => fallback

/-- The post-resolution filter of `handleSearchToolsRequest`: a resolved
tool with a truthy name and server name must pass the configuration filter
and then the group filter; tools with a falsy name or server name pass
unconditionally (the source returns `true` for them). -/
def filterPasses (env : SmartEnv) (group : String) (tool : OutTool) : Bool :=
  if tool.name ≠ "" then
    if tool.serverName ≠ "" then
      env.toolConfigEnabled tool.serverName tool.name &&
        env.groupVisible group tool.serverName tool.name
    else true
  else true

/-- The group/server-scope resolution at the top of
`handleSearchToolsRequest`: a session group of the form `$smart/<g>` with
non-empty `<g>` rebinds the group to `<g>` and, when `getServersInGroup`
returns a list (even an empty one), uses it as the server allow-list; any
other session group leaves the allow-list absent. -/
def resolveSmartGroup (serversInGroup : String → Option (List String))
    (groupRaw : String) : String × Option (List String) :=
  if jsStartsWith groupRaw "$smart/" then
    let tg := jsDropChars groupRaw 7
    (if tg ≠ "" then tg else groupRaw, serversInGroup tg)
  else (groupRaw, none)

/-- The `metadata` object of the search response envelope. -/
structure SearchMetadata where
  query : String
  threshold : ℚ
  totalResults : Nat
  progressiveDisclosure : Bool
  guideline : String
  nextSteps : String
deriving DecidableEq, Repr

/-- The search response `{tools, metadata}` (serialized to JSON text by the
source; the serialization is not modelled). -/
structure SearchResponse where
  tools : List OutTool
  metadata : SearchMetadata
deriving DecidableEq, Repr

/-- The mode- and emptiness-dependent `guideline` string of the response. -/
def searchGuideline (progressive : Bool) (found : Bool) : String :=
  if found then
    if progressive then
      "Found relevant tools. Use describe_tool to get the full parameter schema before calling. If these tools don\'t match exactly what you need, try another search with more specific keywords."
    else
      "Found relevant tools. If these tools don\'t match exactly what you need, try another search with more specific keywords."
  else "No tools found. Try broadening your search or using different keywords."

/-- The mode- and emptiness-dependent `nextSteps` string of the response. -/
def searchNextSteps (progressive : Bool) (found : Bool) : String :=
  if found then
    if progressive then
      "Use describe_tool with the toolName to get the full inputSchema, then use call_tool to execute."
    else "To use a tool, call call_tool with the toolName and required arguments."
  else "Consider searching for related capabilities or more general terms."

/-- `handleSearchToolsRequest(query, limit, sessionId)` of
smartRoutingService.ts. A falsy query throws (the `.error` case). Otherwise:
clamp the limit to `[1,100]` (the clamped value only parametrizes the
repository probe, which `repoResult` abstracts), compute the dynamic
threshold, resolve the session group to a group name and server allow-list,
run `searchToolsByVector`, resolve every hit against the live catalog, apply
the post-resolution filters, and assemble the `{tools, metadata}`
envelope. `groupRaw` is the session's group string (`getGroup(sessionId)`,
empty when none). -/
def handleSearchToolsRequest (env : SmartEnv)
    (repoResult : Except String (List RawHit)) (query : String) (_limit : Nat)
    (groupRaw : String) : Except String SearchResponse :=
  if query = "" then .error "Query parameter is required and must be a string"
  else
    let thresholdNum := computeThreshold query
    let gs := resolveSmartGroup env.serversInGroup groupRaw
    let searchResults := searchToolsByVector repoResult gs.2
    let resolvedTools := searchResults.map (resolveHit env)
    let tools := resolvedTools.filter (filterPasses env gs.1)
    .ok
      { tools := tools,
        metadata :=
          { query := query, threshold := thresholdNum,
            totalResults := tools.length,
            progressiveDisclosure := env.progressiveDisclosure,
            guideline := searchGuideline env.progressiveDisclosure (tools.length > 0),
            nextSteps := searchNextSteps env.progressiveDisclosure (tools.length > 0) } }

/-- Outcome of `handleDescribeToolRequest`: the thrown invalid-argument
error, a found tool payload, or the structured not-found payload (the
`isError: true` response). -/
inductive DescribeResult where
  | invalidArg : DescribeResult
  | found : OutTool → DescribeResult
  | notFound : DescribeResult
deriving DecidableEq, Repr

/-- The server scan of `handleDescribeToolRequest`: the first connected,
enabled backend holding a tool of the requested name that the configuration
filter keeps and, when a group is in force, the group filter keeps; its
payload carries the custom-or-own description and the tool's schema with
`$schema` stripped. -/
def describeScan (env : SmartEnv) (toolName group : String) :
    List ServerInfo → DescribeResult
  | [] => .notFound
  | s :: rest =>
    if !(s.connected && s.enabled) then describeScan env toolName group rest
    else
      match s.tools.find? (fun t => t.name = toolName) with
      | none => describeScan env toolName group rest
      | some tool =>
        if !env.toolConfigEnabled s.name tool.name then
          describeScan env toolName group rest
        else if group ≠ "" && !env.groupVisible group s.name tool.name then
          describeScan env toolName group rest
        else
          .found
            { name := tool.name,
              description := applyCustomDescription
                (env.customDescription s.name tool.name) tool.description,
              inputSchema := some (cleanInputSchema tool.inputSchema),
              serverName := s.name }

/-- `handleDescribeToolRequest(toolName, sessionId)` of
smartRoutingService.ts: a falsy tool name throws; a `$smart/<g>` session
group is rebound to `<g>`; then the linear scan over the live catalog. -/
def handleDescribeToolRequest (env : SmartEnv) (toolName groupRaw : String) :
    DescribeResult :=
  if toolName = "" then .invalidArg
  else
    let group :=
      if jsStartsWith groupRaw "$smart/" then jsDropChars groupRaw 7 else groupRaw
    describeScan env toolName group env.serverInfos

/-- Modelled from the spec: mcpService's `filterToolsByGroup` is not among
the provided sources (smartRoutingService.ts only receives it by injection).
§6 gives `isToolVisibleInGroup(group, backend, tool) -> bool` with
`groupMembers(groupName) -> [backendName] | undefined`, and the glossary
defines a group as "a named, configurable subset of backends exposed
together": a tool is visible in a group exactly when its backend is a member;
an unknown group imposes no restriction. -/
def specGroupVisible (serversInGroup : String → Option (List String))
    (group serverName : String) (_toolName : String) : Bool :=
  match serversInGroup group with
  | some members => members.contains serverName
  | none => true

/-! ## Theorems -/

/-- C4 counterexample: the query `"specific"` is shorter than 10 characters
and has a single space-separated word, yet the heuristic selects `0.4`, not
the `0.2` the claim assigns to short/few-word queries — the long/precise
rule overrides the short/few-word rule when both apply. -/
theorem computeThreshold_specific_counterexample :
    ("specific".length < 10 ∨ (jsSplitSpace "specific").length ≤ 2) ∧
      computeThreshold "specific" ≠ 2 / 10 := by
  constructor
  · left; decide
  · have hB : ("specific".length > 30 || jsIncludes "specific" "specific" ||
        jsIncludes "specific" "exact") = true := by decide
    simp [computeThreshold, hB]
    norm_num

/-- C4 (amended): the heuristic implements the prioritized policy — `0.4`
for queries longer than 30 characters or containing the words `"specific"`
or `"exact"`; otherwise `0.2` for queries shorter than 10 characters or of
at most 2 space-separated words; otherwise `0.3`. In particular the
1-character query `"x"` selects `0.2` and the spec's long precise query
selects `0.4`. -/
theorem computeThreshold_matches_spec :
    (∀ q : String, computeThreshold q = specThreshold q) ∧
      computeThreshold "x" = 2 / 10 ∧
      computeThreshold "find the specific exact config value for timeout" = 4 / 10 := by
  refine ⟨fun _ => rfl, ?_, ?_⟩
  · have hA : ("x".length < 10 || (jsSplitSpace "x").length ≤ 2) = true := by decide
    have hB : ("x".length > 30 || jsIncludes "x" "specific" ||
        jsIncludes "x" "exact") = false := by decide
    simp [computeThreshold, hA, hB]
  · have hB : ("find the specific exact config value for timeout".length > 30 ||
        jsIncludes "find the specific exact config value for timeout" "specific" ||
        jsIncludes "find the specific exact config value for timeout" "exact") = true := by
      decide
    simp [computeThreshold, hB]

/-- C5: when the store accepts the HNSW statements, index creation yields
the HNSW strategy for `dimensions ≤ 2000` and the halfvec HNSW strategy for
`2000 < dimensions ≤ 4000`; for `dimensions > 4000` no index is attempted —
whatever the store would accept — and none is reported. -/
theorem createVectorIndex_strategy (oracle : IndexOracle) (d : Nat) :
    (oracle.hnswOk = true → d ≤ 2000 →
      createVectorIndex oracle d = { success := true, indexType := some "hnsw" }) ∧
    (oracle.halfvecOk = true → 2000 < d → d ≤ 4000 →
      createVectorIndex oracle d =
        { success := true, indexType := some "hnsw-halfvec" }) ∧
    (4000 < d →
      createVectorIndex oracle d = { success := false, indexType := none }) := by
  refine ⟨fun hh hd => ?_, fun hh hd hd' => ?_, fun hd => ?_⟩
  · simp [createVectorIndex, VECTOR_MAX_DIMENSIONS, hd, hh]
  · simp [createVectorIndex, VECTOR_MAX_DIMENSIONS, HALFVEC_MAX_DIMENSIONS, hh, hd',
      show ¬ d ≤ 2000 by omega]
  · simp [createVectorIndex, VECTOR_MAX_DIMENSIONS, HALFVEC_MAX_DIMENSIONS,
      show ¬ d ≤ 2000 by omega, show ¬ d ≤ 4000 by omega]

/-- Witness for C5 at the concrete dimensionalities 1536, 3072 and 4096 with
a store accepting every index statement. -/
theorem createVectorIndex_strategy_witness :
    createVectorIndex ⟨true, true, true⟩ 1536 =
        { success := true, indexType := some "hnsw" } ∧
      createVectorIndex ⟨true, true, true⟩ 3072 =
        { success := true, indexType := some "hnsw-halfvec" } ∧
      createVectorIndex ⟨true, true, true⟩ 4096 =
        { success := false, indexType := none } :=
  ⟨(createVectorIndex_strategy ⟨true, true, true⟩ 1536).1 rfl (by decide),
   (createVectorIndex_strategy ⟨true, true, true⟩ 3072).2.1 rfl (by decide) (by decide),
   (createVectorIndex_strategy ⟨true, true, true⟩ 4096).2.2 (by decide)⟩

/-- C10: `searchToolsByVector` swallows every internal failure — when the
repository lookup (or the query embedding or thresholding it performs)
errors, the result is the empty list, identical to the result of a
successful search with zero matches; the function, the catch-all over its
body, never propagates an error. -/
theorem searchToolsByVector_error_empty (e : String)
    (serverNames : Option (List String)) :
    searchToolsByVector (.error e) serverNames = [] ∧
      searchToolsByVector (.ok []) serverNames = [] := by
  constructor
  · rfl
  · simp only [searchToolsByVector, searchToolsByVectorBody, filterHitsByServerNames]
    cases serverNames with
    | none => rfl
    | some l => cases l <;> simp

/-- Helper for the retry theorem: when every attempt fails with the same
retryable error, the attempt loop consumes exactly its fuel, invoking the
operation once per unit of fuel and ending with that error. -/
theorem withDbRetryGo_const_error {α} (op : Nat → Except DbError α) (n : Nat) (e : DbError)
    (hop : ∀ k, op k = .error e) (hr : isRetryableDbError e = true) :
    ∀ fuel attempt, 1 ≤ fuel → attempt + fuel = n + 2 →
      withDbRetryGo op n attempt fuel = (.error e, fuel) := by
  intro fuel
  induction fuel with
  | zero => intro attempt h1 _; omega
  | succ f ih =>
    intro attempt _ hsum
    simp only [withDbRetryGo, hop attempt]
    by_cases hgt : attempt > n
    · have hf : f = 0 := by omega
      subst hf
      simp [hgt]
    · have hf : 1 ≤ f := by omega
      have hcond : ¬ ((attempt > n || !isRetryableDbError e) = true) := by
        simp [hgt, hr]
      rw [if_neg hcond, ih (attempt + 1) hf (by omega)]

/-- C6: with `maxRetries = n`, an operation that always fails with a
retryable error is invoked exactly `n + 1` times before `withDbRetry`
re-raises the last error, while an operation whose first failure is
non-retryable is invoked exactly once and its error re-raised immediately —
so `maxRetries = 3` gives exactly 4 attempts versus exactly 1. -/
theorem withDbRetry_attempts {α} (op : Nat → Except DbError α) (n : Nat) (e : DbError) :
    ((∀ k, op k = .error e) → isRetryableDbError e = true →
      withDbRetry op n = (.error e, n + 1)) ∧
    (op 1 = .error e → isRetryableDbError e = false →
      withDbRetry op n = (.error e, 1)) := by
  constructor
  · intro hop hr
    exact withDbRetryGo_const_error op n e hop hr (n + 1) 1 (by omega) (by omega)
  · intro hop hr
    show withDbRetryGo op n 1 (n + 1) = (.error e, 1)
    simp only [withDbRetryGo, hop]
    have hcond : (1 > n || !isRetryableDbError e) = true := by simp [hr]
    rw [if_pos hcond]

/-- Witness for C6 at `maxRetries = 3`: a connection-reset error (retryable
by its `ECONNRESET` code) costs 4 attempts; a division-by-zero error
(matching no retryable code or pattern) costs 1. -/
theorem withDbRetry_attempts_witness :
    withDbRetry (fun _ => (.error ⟨some "ECONNRESET", none, none, none⟩ : Except DbError Unit)) 3 =
        (.error ⟨some "ECONNRESET", none, none, none⟩, 4) ∧
      withDbRetry
          (fun _ => (.error ⟨none, none, some "division by zero", none⟩ : Except DbError Unit)) 3 =
        (.error ⟨none, none, some "division by zero", none⟩, 1) :=
  ⟨(withDbRetry_attempts _ 3 _).1 (fun _ => rfl) (by decide),
   (withDbRetry_attempts _ 3 _).2 rfl (by decide)⟩

/-- C1: for every needed dimensionality `d`, when the configured width (the
column's declared width, falling back to the records' dominant `dimensions`
value) is non-zero and differs from `d`, the dimension check keeps exactly
the records whose `dimensions` equal `d` — every mismatched record is
deleted, every matching one retained — and sets the column width to `d`;
when no width is configured it sets the width leaving the records
untouched. -/
theorem checkDatabaseVectorDimensions_reconciles (oracle : IndexOracle)
    (store : VectorStore) (d : Nat) :
    (currentConfiguredDims store ≠ 0 → currentConfiguredDims store ≠ d →
      (checkDatabaseVectorDimensions oracle store d).records =
          store.records.filter (fun r => r.dims = d) ∧
        (checkDatabaseVectorDimensions oracle store d).colDims = some d ∧
        (∀ r ∈ (checkDatabaseVectorDimensions oracle store d).records, r.dims = d) ∧
        (∀ r ∈ store.records, r.dims = d →
          r ∈ (checkDatabaseVectorDimensions oracle store d).records)) ∧
    (currentConfiguredDims store = 0 →
      (checkDatabaseVectorDimensions oracle store d).records = store.records ∧
        (checkDatabaseVectorDimensions oracle store d).colDims = some d) := by
  constructor
  · intro h0 hd
    have hcond : ((currentConfiguredDims store = 0 : Bool) ||
        (currentConfiguredDims store ≠ d : Bool)) = true := by
      simp [hd]
    have heq : checkDatabaseVectorDimensions oracle store d =
        { clearMismatchedVectorData store d with
          colDims := some d,
          indexType := (createVectorIndex oracle d).indexType } := by
      unfold checkDatabaseVectorDimensions
      rw [if_pos hcond, if_neg h0]
    refine ⟨by rw [heq]; rfl, by rw [heq], ?_, ?_⟩
    · intro r hr
      rw [heq] at hr
      have := List.mem_filter.1 hr
      simpa using this.2
    · intro r hr hdr
      rw [heq]
      exact List.mem_filter.2 ⟨hr, by simpa using hdr⟩
  · intro h0
    have hcond : ((currentConfiguredDims store = 0 : Bool) ||
        (currentConfiguredDims store ≠ d : Bool)) = true := by
      simp [h0]
    have heq : checkDatabaseVectorDimensions oracle store d =
        { store with
          colDims := some d,
          indexType := (createVectorIndex oracle d).indexType } := by
      unfold checkDatabaseVectorDimensions
      rw [if_pos hcond, if_pos h0]
    exact ⟨by rw [heq], by rw [heq]⟩

/-- Witness for C1: a store declared at width 100 holding a 100-wide and a
50-wide record, reconciled to width 50, keeps exactly the 50-wide record and
re-declares the column; a virgin store (no declared width, no records)
gets the width set with nothing deleted. -/
theorem checkDatabaseVectorDimensions_witness :
    currentConfiguredDims ⟨some 100,
        [⟨"tool", "s:a", "ta", [], 100, "m"⟩, ⟨"tool", "s:b", "tb", [], 50, "m"⟩], none⟩ ≠ 0 ∧
      (checkDatabaseVectorDimensions ⟨true, true, true⟩
          ⟨some 100, [⟨"tool", "s:a", "ta", [], 100, "m"⟩,
            ⟨"tool", "s:b", "tb", [], 50, "m"⟩], none⟩ 50).records =
        [⟨"tool", "s:a", "ta", [], 100, "m"⟩,
          ⟨"tool", "s:b", "tb", [], 50, "m"⟩].filter (fun r => r.dims = 50) ∧
      (checkDatabaseVectorDimensions ⟨true, true, true⟩
          ⟨some 100, [⟨"tool", "s:a", "ta", [], 100, "m"⟩,
            ⟨"tool", "s:b", "tb", [], 50, "m"⟩], none⟩ 50).colDims = some 50 ∧
      (checkDatabaseVectorDimensions ⟨true, true, true⟩ ⟨none, [], none⟩ 50).records = [] ∧
      (checkDatabaseVectorDimensions ⟨true, true, true⟩ ⟨none, [], none⟩ 50).colDims = some 50 :=
  ⟨by decide,
   ((checkDatabaseVectorDimensions_reconciles ⟨true, true, true⟩ _ 50).1
      (by decide) (by decide)).1,
   ((checkDatabaseVectorDimensions_reconciles ⟨true, true, true⟩ _ 50).1
      (by decide) (by decide)).2.1,
   ((checkDatabaseVectorDimensions_reconciles ⟨true, true, true⟩ ⟨none, [], none⟩ 50).2
      (by decide)).1,
   ((checkDatabaseVectorDimensions_reconciles ⟨true, true, true⟩ ⟨none, [], none⟩ 50).2
      (by decide)).2⟩

/-- The per-word update preserves the vector's length. -/
theorem fallbackStep_length (v : List ℚ) (w : String) :
    (fallbackStep v w).length = v.length := by
  simp only [fallbackStep, bumpAt]
  split <;> simp

/-- The word fold preserves the vector's length. -/
theorem foldl_fallbackStep_length (l : List String) :
    ∀ v : List ℚ, (l.foldl fallbackStep v).length = v.length := by
  induction l with
  | nil => intro v; rfl
  | cons w rest ih =>
    intro v
    rw [List.foldl_cons, ih, fallbackStep_length]

/-- The raw fallback vector always has length 100. -/
theorem generateFallbackEmbeddingRaw_length (t : String) :
    (generateFallbackEmbeddingRaw t).length = 100 := by
  unfold generateFallbackEmbeddingRaw
  rw [foldl_fallbackStep_length, List.length_replicate]
  rfl

/-- The squared magnitude as a sum over the squared entries. -/
theorem sumSq_eq_sum_map (v : List ℚ) : sumSq v = (v.map (fun x => x * x)).sum := by
  have aux : ∀ (l : List ℚ) (a : ℚ),
      l.foldl (fun s x => s + x * x) a = a + (l.map (fun x => x * x)).sum := by
    intro l
    induction l with
    | nil => intro a; simp
    | cons x rest ih => intro a; simp [ih]; ring
  simpa using aux v 0

/-- The squared magnitude is never negative. -/
theorem sumSq_nonneg (v : List ℚ) : 0 ≤ sumSq v := by
  rw [sumSq_eq_sum_map]
  apply List.sum_nonneg
  intro x hx
  obtain ⟨y, _, rfl⟩ := List.mem_map.1 hx
  exact mul_self_nonneg y

/-- A vector of zero squared magnitude has only zero entries. -/
theorem sumSq_eq_zero_all_zero (v : List ℚ) (h : sumSq v = 0) : ∀ x ∈ v, x = 0 := by
  induction v with
  | nil => intro x hx; cases hx
  | cons y rest ih =>
    rw [sumSq_eq_sum_map] at h
    simp only [List.map_cons, List.sum_cons] at h
    have h1 : 0 ≤ y * y := mul_self_nonneg y
    have h2 : 0 ≤ (rest.map (fun x => x * x)).sum := by
      apply List.sum_nonneg
      intro x hx
      obtain ⟨z, _, rfl⟩ := List.mem_map.1 hx
      exact mul_self_nonneg z
    have hy : y * y = 0 := by linarith
    have hrest : (rest.map (fun x => x * x)).sum = 0 := by linarith
    intro x hx
    rcases List.mem_cons.1 hx with hx | hx
    · subst hx; exact (mul_self_eq_zero).1 hy
    · exact ih (by rw [sumSq_eq_sum_map]; exact hrest) x hx

/-- A vector holding a non-zero entry has non-zero squared magnitude. -/
theorem sumSq_ne_zero_of_mem {v : List ℚ} {x : ℚ} (hx : x ∈ v) (hx0 : x ≠ 0) :
    sumSq v ≠ 0 := by
  intro h
  exact hx0 (sumSq_eq_zero_all_zero v h x hx)

/-- Casting a rational list sum into the reals. -/
theorem cast_list_sum (l : List ℚ) :
    ((l.sum : ℚ) : ℝ) = (l.map (fun q => ((q : ℚ) : ℝ))).sum := by
  induction l with
  | nil => simp
  | cons y rest ih => simp [ih]

/-- The squared magnitude over the reals. -/
theorem sumSq_cast (v : List ℚ) :
    ((sumSq v : ℚ) : ℝ) = (v.map (fun x => ((x : ℚ) : ℝ) ^ 2)).sum := by
  rw [sumSq_eq_sum_map, cast_list_sum, List.map_map]
  congr 1
  apply List.map_congr_left
  intro x _
  simp [Function.comp, sq]

/-- C7: the fallback embedding of any text is deterministic (any two vectors
the relation admits for the same text coincide), has length exactly 100, has
unit L2 norm (sum of squared entries 1) whenever the raw accumulated vector
is non-zero, and when the raw magnitude is zero the raw vector — then
necessarily the zero vector — is returned unchanged. -/
theorem generateFallbackEmbedding_props (t : String) (r : List ℝ)
    (h : generateFallbackEmbedding t r) :
    r.length = 100 ∧
    (∀ r', generateFallbackEmbedding t r' → r' = r) ∧
    (sumSq (generateFallbackEmbeddingRaw t) ≠ 0 →
      (r.map (fun x => x ^ 2)).sum = 1) ∧
    (sumSq (generateFallbackEmbeddingRaw t) = 0 →
      generateFallbackEmbeddingRaw t = List.replicate 100 0 ∧
        r = (generateFallbackEmbeddingRaw t).map (fun x => ((x : ℚ) : ℝ))) := by
  unfold generateFallbackEmbedding at h
  refine ⟨?_, ?_, ?_, ?_⟩
  · rw [h]
    split <;> simp [generateFallbackEmbeddingRaw_length]
  · intro r' h'
    unfold generateFallbackEmbedding at h'
    rw [h', h]
  · intro hS
    have hpos : 0 < sumSq (generateFallbackEmbeddingRaw t) :=
      lt_of_le_of_ne (sumSq_nonneg _) (Ne.symm hS)
    have hposR : (0 : ℝ) < ((sumSq (generateFallbackEmbeddingRaw t) : ℚ) : ℝ) := by
      exact_mod_cast hpos
    have hm : Real.sqrt ((sumSq (generateFallbackEmbeddingRaw t) : ℚ) : ℝ) ≠ 0 :=
      ne_of_gt (Real.sqrt_pos.2 hposR)
    rw [h, if_neg hm, List.map_map]
    have hterm : ∀ x : ℚ,
        ((fun x => x ^ 2) ∘ fun x => ((x : ℚ) : ℝ) /
            Real.sqrt ((sumSq (generateFallbackEmbeddingRaw t) : ℚ) : ℝ)) x =
          ((x : ℚ) : ℝ) ^ 2 * (((sumSq (generateFallbackEmbeddingRaw t) : ℚ) : ℝ))⁻¹ := by
      intro x
      simp only [Function.comp_apply, div_pow]
      rw [Real.sq_sqrt (le_of_lt hposR), div_eq_mul_inv]
    rw [List.map_congr_left (fun x _ => hterm x), List.sum_map_mul_right, ← sumSq_cast]
    exact mul_inv_cancel₀ (ne_of_gt hposR)
  · intro hS
    have hzero : ((sumSq (generateFallbackEmbeddingRaw t) : ℚ) : ℝ) = 0 := by
      rw [hS]; norm_num
    constructor
    · rw [List.eq_replicate_iff]
      exact ⟨generateFallbackEmbeddingRaw_length t, sumSq_eq_zero_all_zero _ hS⟩
    · rw [h, hzero, Real.sqrt_zero, if_pos rfl]

/-- Witness for C7 at the text `"x"`: its raw vector is zero except for the
`0.1` hash contribution at position 20, so the magnitude is non-zero, the
normalized vector sums its squares to 1, and the length is 100. -/
theorem generateFallbackEmbedding_props_witness :
    sumSq (generateFallbackEmbeddingRaw "x") ≠ 0 ∧
    ((((generateFallbackEmbeddingRaw "x").map
        (fun x => ((x : ℚ) : ℝ) /
          Real.sqrt ((sumSq (generateFallbackEmbeddingRaw "x") : ℚ) : ℝ))).map
        (fun x => x ^ 2)).sum = 1) ∧
    ((generateFallbackEmbeddingRaw "x").map
        (fun x => ((x : ℚ) : ℝ) /
          Real.sqrt ((sumSq (generateFallbackEmbeddingRaw "x") : ℚ) : ℝ))).length = 100 := by
  have hraw : generateFallbackEmbeddingRaw "x" =
      List.replicate 20 (0 : ℚ) ++ ((0 : ℚ) + 1 / 10) :: List.replicate 79 0 := rfl
  have hmem : ((0 : ℚ) + 1 / 10) ∈ generateFallbackEmbeddingRaw "x" := by
    rw [hraw]
    exact List.mem_append_right _ (List.mem_cons_self _ _)
  have hS : sumSq (generateFallbackEmbeddingRaw "x") ≠ 0 :=
    sumSq_ne_zero_of_mem hmem (by norm_num)
  have hposR : (0 : ℝ) < ((sumSq (generateFallbackEmbeddingRaw "x") : ℚ) : ℝ) := by
    exact_mod_cast lt_of_le_of_ne (sumSq_nonneg _) (Ne.symm hS)
  have hm : Real.sqrt ((sumSq (generateFallbackEmbeddingRaw "x") : ℚ) : ℝ) ≠ 0 :=
    ne_of_gt (Real.sqrt_pos.2 hposR)
  have h : generateFallbackEmbedding "x"
      ((generateFallbackEmbeddingRaw "x").map
        (fun x => ((x : ℚ) : ℝ) /
          Real.sqrt ((sumSq (generateFallbackEmbeddingRaw "x") : ℚ) : ℝ))) := by
    unfold generateFallbackEmbedding
    rw [if_neg hm]
  exact ⟨hS, (generateFallbackEmbedding_props "x" _ h).2.2.1 hS,
    (generateFallbackEmbedding_props "x" _ h).1⟩

/-- The per-hit resolution never changes the hit's tool name or backend
name: the live path re-finds the tool by exactly that name and the fallback
echoes the hit. -/
theorem resolveHit_fields (env : SmartEnv) (hit : ToolHit) :
    (resolveHit env hit).name = hit.toolName ∧
      (resolveHit env hit).serverName = hit.serverName := by
  simp only [resolveHit]
  split
  · -- find? = some server
    split
    · -- tools nonempty
      split
      · -- actual tool found
        rename_i server hfind htools actualTool hfindT
        have hname : actualTool.name = hit.toolName := by
          have := List.find?_some hfindT
          simpa using this
        split
        · split <;> exact ⟨hname, rfl⟩
        · split <;> exact ⟨rfl, rfl⟩
      · split <;> exact ⟨rfl, rfl⟩
    · split <;> exact ⟨rfl, rfl⟩
  · split <;> exact ⟨rfl, rfl⟩

/-- A hit whose metadata parsed with truthy names becomes a structured
result carrying exactly those names. -/
theorem transformHit_fields (h : RawHit) (m : ToolMeta) (hm : h.metadata = some m)
    (hs : m.serverName ≠ "") (ht : m.toolName ≠ "") :
    (transformHit h).toolName = m.toolName ∧
      (transformHit h).serverName = m.serverName := by
  simp [transformHit, hm, hs, ht]

/-- The server-name filter only ever drops hits. -/
theorem mem_filterHitsByServerNames {sn : Option (List String)} {hits : List RawHit}
    {h : RawHit} (hmem : h ∈ filterHitsByServerNames sn hits) : h ∈ hits := by
  cases sn with
  | none => exact hmem
  | some l =>
    simp only [filterHitsByServerNames] at hmem
    split at hmem
    · exact (List.mem_filter.1 hmem).1
    · exact hmem

/-- C3 (spec-modelled group filter): a search scoped to a group that exists
but has zero member backends returns the normal response envelope with an
empty `tools` array and `totalResults = 0` — never an error. The emptiness
arises at the post-resolution group filter: the empty allow-list disables
`searchToolsByVector`'s own server filter, but no backend is a member of the
empty group, so every resolved hit is dropped. -/
theorem emptyGroup_search_empty (env : SmartEnv) (hits : List RawHit)
    (query : String) (lim : Nat) (groupRaw g : String)
    (hq : query ≠ "")
    (hscope : resolveSmartGroup env.serversInGroup groupRaw = (g, some []))
    (hmembers : env.serversInGroup g = some [])
    (hvis : env.groupVisible = specGroupVisible env.serversInGroup)
    (hwf : ∀ h ∈ hits, ∃ m, h.metadata = some m ∧ m.serverName ≠ "" ∧ m.toolName ≠ "") :
    handleSearchToolsRequest env (.ok hits) query lim groupRaw =
      .ok { tools := [],
            metadata :=
              { query := query, threshold := computeThreshold query,
                totalResults := 0,
                progressiveDisclosure := env.progressiveDisclosure,
                guideline := searchGuideline env.progressiveDisclosure false,
                nextSteps := searchNextSteps env.progressiveDisclosure false } } := by
  have hsearch : searchToolsByVector (.ok hits) (some ([] : List String)) =
      hits.map transformHit := by
    simp [searchToolsByVector, searchToolsByVectorBody, filterHitsByServerNames]
  have hfilter : ((hits.map transformHit).map (resolveHit env)).filter
      (filterPasses env g) = [] := by
    rw [List.filter_eq_nil_iff]
    intro x hx
    obtain ⟨y, hy, rfl⟩ := List.mem_map.1 hx
    obtain ⟨h0, hh0, rfl⟩ := List.mem_map.1 hy
    obtain ⟨m, hm, hs, ht⟩ := hwf h0 hh0
    obtain ⟨hname, hserver⟩ := resolveHit_fields env (transformHit h0)
    obtain ⟨htn, hsn⟩ := transformHit_fields h0 m hm hs ht
    rw [htn] at hname
    rw [hsn] at hserver
    simp only [filterPasses, hname, hserver]
    rw [if_pos ht, if_pos hs, hvis]
    simp only [specGroupVisible, hmembers]
    simp
  simp only [handleSearchToolsRequest]
  rw [if_neg hq, hscope]
  simp only [hsearch, hfilter]
  rfl

/-- Witness for C3: a concrete catalog-less environment, a group `eg` with
no members, one well-formed stored hit; the response is the empty
envelope. -/
theorem emptyGroup_search_empty_witness :
    handleSearchToolsRequest
        ⟨[], fun s => if s = "eg" then some [] else none, fun _ _ => true,
          specGroupVisible (fun s => if s = "eg" then some [] else none),
          fun _ _ => none, false⟩
        (.ok [⟨some ⟨"srv1", "tool1", "d", ⟨[], []⟩⟩, "txt", 1⟩]) "q" 10 "$smart/eg" =
      .ok { tools := [],
            metadata :=
              { query := "q", threshold := computeThreshold "q", totalResults := 0,
                progressiveDisclosure := false,
                guideline := searchGuideline false false,
                nextSteps := searchNextSteps false false } } :=
  emptyGroup_search_empty _ _ "q" 10 "$smart/eg" "eg" (by decide) rfl rfl rfl
    (by
      intro h hh
      simp only [List.mem_singleton] at hh
      subst hh
      exact ⟨⟨"srv1", "tool1", "d", ⟨[], []⟩⟩, rfl, by decide, by decide⟩)

/-- A successful repository lookup makes `searchToolsByVector` the filtered,
transformed hit list. -/
theorem searchToolsByVector_ok (hits : List RawHit) (sn : Option (List String)) :
    searchToolsByVector (.ok hits) sn =
      (filterHitsByServerNames sn hits).map transformHit := rfl

/-- C2 (amended): every tool in a search response passes the
configuration-enabled filter and the group-visibility filter (applied to its
backend and tool name). The original claim fails — see the counterexample —
because a hit whose backend+tool no longer resolves in the live catalog is
not dropped but falls back to the stale index metadata; the filters are the
only gate it must still pass. -/
theorem search_filters_enforced (env : SmartEnv) (hits : List RawHit)
    (query : String) (lim : Nat) (groupRaw : String) (resp : SearchResponse)
    (hwf : ∀ h ∈ hits, ∃ m, h.metadata = some m ∧ m.serverName ≠ "" ∧ m.toolName ≠ "")
    (hok : handleSearchToolsRequest env (.ok hits) query lim groupRaw = .ok resp) :
    ∀ t ∈ resp.tools,
      env.toolConfigEnabled t.serverName t.name = true ∧
        env.groupVisible (resolveSmartGroup env.serversInGroup groupRaw).1
          t.serverName t.name = true := by
  by_cases hq : query = ""
  · rw [hq] at hok
    simp [handleSearchToolsRequest] at hok
  · simp only [handleSearchToolsRequest, if_neg hq, searchToolsByVector_ok,
      Except.ok.injEq] at hok
    intro t ht
    rw [← hok] at ht
    simp only at ht
    have hpair := List.mem_filter.1 ht
    obtain ⟨y, hy, rfl⟩ := List.mem_map.1 hpair.1
    obtain ⟨h0, hh0, rfl⟩ := List.mem_map.1 hy
    have hh0' : h0 ∈ hits := mem_filterHitsByServerNames hh0
    obtain ⟨m, hm, hs, ht'⟩ := hwf h0 hh0'
    obtain ⟨hname, hserver⟩ := resolveHit_fields env (transformHit h0)
    obtain ⟨htn, hsn⟩ := transformHit_fields h0 m hm hs ht'
    rw [htn] at hname
    rw [hsn] at hserver
    have hpass := hpair.2
    simp only [filterPasses, hname, hserver, if_pos ht', if_pos hs] at hpass
    rw [hname, hserver]
    simp only [Bool.and_eq_true] at hpass
    exact hpass

/-- C2 counterexample: with an empty live catalog (the backend of the
indexed tool has been removed) and permissive filters, the top similarity
hit is returned from the stale index metadata — the response contains a tool
that no live catalog holds, contradicting the claim that such hits are
absent from the result. -/
theorem search_stale_counterexample :
    handleSearchToolsRequest
        ⟨[], fun _ => none, fun _ _ => true, fun _ _ _ => true, fun _ _ => none, false⟩
        (.ok [⟨some ⟨"srv", "gone", "old", ⟨[("type", "object")], ["q"]⟩⟩, "txt", 1⟩])
        "maps" 10 "" =
      .ok { tools := [⟨"gone", "old", some ⟨[("type", "object")], ["q"]⟩, "srv"⟩],
            metadata :=
              ⟨"maps", 2 / 10, 1, false, searchGuideline false true,
                searchNextSteps false true⟩ } ∧
      ([⟨"gone", "old", some ⟨[("type", "object")], ["q"]⟩, "srv"⟩] : List OutTool) ≠ [] :=
  ⟨rfl, by decide⟩

/-- Witness for C2 (amended) on a one-backend catalog: the returned tool
passes both filters. -/
theorem search_filters_enforced_witness :
    (⟨[⟨"s", true, true, [⟨"t", "d", ⟨[], []⟩⟩]⟩], fun _ => none, fun _ _ => true,
        fun _ _ _ => true, fun _ _ => none, false⟩ : SmartEnv).toolConfigEnabled
        (⟨"t", "d", some ⟨[], []⟩, "s"⟩ : OutTool).serverName
        (⟨"t", "d", some ⟨[], []⟩, "s"⟩ : OutTool).name = true ∧
      (⟨[⟨"s", true, true, [⟨"t", "d", ⟨[], []⟩⟩]⟩], fun _ => none, fun _ _ => true,
          fun _ _ _ => true, fun _ _ => none, false⟩ : SmartEnv).groupVisible
        (resolveSmartGroup (fun _ => none) "").1
        (⟨"t", "d", some ⟨[], []⟩, "s"⟩ : OutTool).serverName
        (⟨"t", "d", some ⟨[], []⟩, "s"⟩ : OutTool).name = true :=
  search_filters_enforced
    ⟨[⟨"s", true, true, [⟨"t", "d", ⟨[], []⟩⟩]⟩], fun _ => none, fun _ _ => true,
      fun _ _ _ => true, fun _ _ => none, false⟩
    [⟨some ⟨"s", "t", "stale", ⟨[], []⟩⟩, "txt", 1⟩] "hello" 10 ""
    ⟨[⟨"t", "d", some ⟨[], []⟩, "s"⟩],
      ⟨"hello", 2 / 10, 1, false, searchGuideline false true, searchNextSteps false true⟩⟩
    (by
      intro h hh
      simp only [List.mem_singleton] at hh
      subst hh
      exact ⟨⟨"s", "t", "stale", ⟨[], []⟩⟩, rfl, by decide, by decide⟩)
    rfl
    ⟨"t", "d", some ⟨[], []⟩, "s"⟩ (List.mem_singleton.2 rfl)

/-- `cleanInputSchema` leaves no `$schema` key behind. -/
theorem cleanInputSchema_no_dollar (s : JsonSchema) :
    "$schema" ∉ (cleanInputSchema s).entries.map Prod.fst := by
  intro hmem
  obtain ⟨kv, hkv, hk⟩ := List.mem_map.1 hmem
  have hf := List.mem_filter.1 hkv
  have : kv.1 ≠ "$schema" := by simpa using hf.2
  exact this hk

/-- In progressive-disclosure mode the resolution step emits no
`inputSchema`, on the live path and the fallback path alike. -/
theorem resolveHit_schema_progressive (env : SmartEnv) (hit : ToolHit)
    (hp : env.progressiveDisclosure = true) :
    (resolveHit env hit).inputSchema = none := by
  simp only [resolveHit]
  split
  · split
    · split
      · split
        · simp [hp]
        · simp [hp]
      · simp [hp]
    · simp [hp]
  · simp [hp]

/-- With an empty live catalog in standard mode the resolution step falls
back to the hit's schema with `$schema` stripped. -/
theorem resolveHit_schema_empty_catalog (env : SmartEnv) (hit : ToolHit)
    (he : env.serverInfos = []) (hp : env.progressiveDisclosure = false) :
    (resolveHit env hit).inputSchema = some (cleanInputSchema hit.inputSchema) := by
  simp [resolveHit, he, hp]

/-- A tool found by the describe scan carries its schema with the `$schema`
key stripped. -/
theorem describeScan_found_schema (env : SmartEnv) (toolName group : String) :
    ∀ (l : List ServerInfo) (info : OutTool),
      describeScan env toolName group l = .found info →
      ∀ s, info.inputSchema = some s → "$schema" ∉ s.entries.map Prod.fst := by
  intro l
  induction l with
  | nil =>
    intro info h
    simp [describeScan] at h
  | cons sv rest ih =>
    intro info h
    simp only [describeScan] at h
    split at h
    · exact ih info h
    · split at h
      · exact ih info h
      · split at h
        · exact ih info h
        · split at h
          · exact ih info h
          · rename_i tool _ _ _
            injection h with h2
            subst h2
            intro s hs
            have hcl : cleanInputSchema tool.inputSchema = s := by
              simpa using hs
            rw [← hcl]
            exact cleanInputSchema_no_dollar _

/-- C8 (amended): in progressive-disclosure mode no search result carries an
`inputSchema` field; `describe_tool` on a found tool returns its schema with
the self-referential `$schema` key stripped; and in standard mode the
stripping holds on the stale-index fallback path (here: an empty live
catalog). The original claim fails — see the counterexample — because the
standard-mode live path spreads the resolved tool with its schema
unmodified. -/
theorem schema_disclosure (env : SmartEnv) (repoResult : Except String (List RawHit))
    (query : String) (lim : Nat) (groupRaw toolName : String) (resp : SearchResponse)
    (info : OutTool) :
    (env.progressiveDisclosure = true →
      handleSearchToolsRequest env repoResult query lim groupRaw = .ok resp →
      ∀ t ∈ resp.tools, t.inputSchema = none) ∧
    (env.serverInfos = [] → env.progressiveDisclosure = false →
      handleSearchToolsRequest env repoResult query lim groupRaw = .ok resp →
      ∀ t ∈ resp.tools, ∀ s, t.inputSchema = some s →
        "$schema" ∉ s.entries.map Prod.fst) ∧
    (handleDescribeToolRequest env toolName groupRaw = .found info →
      ∀ s, info.inputSchema = some s → "$schema" ∉ s.entries.map Prod.fst) := by
  refine ⟨?_, ?_, ?_⟩
  · intro hp hok
    by_cases hq : query = ""
    · rw [hq] at hok
      simp [handleSearchToolsRequest] at hok
    · simp only [handleSearchToolsRequest, if_neg hq, Except.ok.injEq] at hok
      intro t ht
      rw [← hok] at ht
      simp only at ht
      obtain ⟨y, _, rfl⟩ := List.mem_map.1 (List.mem_filter.1 ht).1
      exact resolveHit_schema_progressive env y hp
  · intro he hp hok
    by_cases hq : query = ""
    · rw [hq] at hok
      simp [handleSearchToolsRequest] at hok
    · simp only [handleSearchToolsRequest, if_neg hq, Except.ok.injEq] at hok
      intro t ht
      rw [← hok] at ht
      simp only at ht
      obtain ⟨y, _, rfl⟩ := List.mem_map.1 (List.mem_filter.1 ht).1
      intro s hs
      rw [resolveHit_schema_empty_catalog env y he hp] at hs
      have hcl : cleanInputSchema y.inputSchema = s := by simpa using hs
      rw [← hcl]
      exact cleanInputSchema_no_dollar _
  · intro h
    by_cases htn : toolName = ""
    · rw [htn] at h
      simp [handleDescribeToolRequest] at h
    · simp only [handleDescribeToolRequest, if_neg htn] at h
      exact describeScan_found_schema env toolName _ env.serverInfos info h

/-- C8 counterexample: in standard mode, a hit resolving to a live tool
whose schema contains a `$schema` key is returned with that key intact — the
live-path spread performs no stripping, contradicting the claim that every
standard-mode result has `$schema` stripped. -/
theorem search_schema_unstripped_counterexample :
    handleSearchToolsRequest
        ⟨[⟨"s", true, true, [⟨"t", "d", ⟨[("$schema", "uri"), ("type", "object")], []⟩⟩]⟩],
          fun _ => none, fun _ _ => true, fun _ _ _ => true, fun _ _ => none, false⟩
        (.ok [⟨some ⟨"s", "t", "stale", ⟨[], []⟩⟩, "txt", 1⟩]) "maps" 10 "" =
      .ok { tools :=
              [⟨"t", "d", some ⟨[("$schema", "uri"), ("type", "object")], []⟩, "s"⟩],
            metadata :=
              ⟨"maps", 2 / 10, 1, false, searchGuideline false true,
                searchNextSteps false true⟩ } ∧
      "$schema" ∈
        ((⟨[("$schema", "uri"), ("type", "object")], []⟩ : JsonSchema).entries.map
          Prod.fst) :=
  ⟨rfl, by decide⟩

/-- Witness for C8 (amended): a progressive-mode search result carries no
schema, and `describe_tool` on the same catalog returns the schema cleaned
of its `$schema` entry. -/
theorem schema_disclosure_witness :
    ((⟨"t", "d", none, "s"⟩ : OutTool).inputSchema = none) ∧
      "$schema" ∉ ((⟨[], []⟩ : JsonSchema).entries.map Prod.fst) :=
  ⟨(schema_disclosure
      ⟨[⟨"s", true, true, [⟨"t", "d", ⟨[("$schema", "u")], []⟩⟩]⟩], fun _ => none,
        fun _ _ => true, fun _ _ _ => true, fun _ _ => none, true⟩
      (.ok [⟨some ⟨"s", "t", "stale", ⟨[], []⟩⟩, "txt", 1⟩]) "hello" 10 "" "t"
      ⟨[⟨"t", "d", none, "s"⟩],
        ⟨"hello", 2 / 10, 1, true, searchGuideline true true, searchNextSteps true true⟩⟩
      ⟨"t", "d", some ⟨[], []⟩, "s"⟩).1 rfl rfl
      ⟨"t", "d", none, "s"⟩ (List.mem_singleton.2 rfl),
   (schema_disclosure
      ⟨[⟨"s", true, true, [⟨"t", "d", ⟨[("$schema", "u")], []⟩⟩]⟩], fun _ => none,
        fun _ _ => true, fun _ _ _ => true, fun _ _ => none, true⟩
      (.ok [⟨some ⟨"s", "t", "stale", ⟨[], []⟩⟩, "txt", 1⟩]) "hello" 10 "" "t"
      ⟨[⟨"t", "d", none, "s"⟩],
        ⟨"hello", 2 / 10, 1, true, searchGuideline true true, searchNextSteps true true⟩⟩
      ⟨"t", "d", some ⟨[], []⟩, "s"⟩).2.2 rfl ⟨[], []⟩ rfl⟩

/-- The save loop stops at the first tool whose embedding fails, keeping
exactly the rows written for the tools before it. -/
theorem saveToolsLoop_error_aborts (embedFn : String → Except String (List ℚ))
    (oracle : IndexOracle) (model srv : String) (bad : Tool) (post : List Tool)
    (e : String) (hbad : embedFn (toolSearchableText bad) = .error e) :
    ∀ (pre : List Tool) (store : VectorStore),
      (∀ t ∈ pre, ∃ v, embedFn (toolSearchableText t) = .ok v) →
      saveToolsLoop embedFn oracle model srv (pre ++ bad :: post) store =
        saveToolsLoop embedFn oracle model srv pre store := by
  intro pre
  induction pre with
  | nil =>
    intro store _
    simp only [List.nil_append, saveToolsLoop, hbad]
  | cons t rest ih =>
    intro store hpre
    obtain ⟨v, hv⟩ := hpre t (List.mem_cons_self t rest)
    simp only [List.cons_append, saveToolsLoop, hv]
    exact ih _ (fun u hu => hpre u (List.mem_cons_of_mem t hu))

/-- C9 (amended): an embedding error for one tool aborts the saving of that
tool and of every later tool of the same backend — the store ends exactly as
if only the preceding tools had been saved; the error is caught inside
`saveToolsAsVectorEmbeddings` (the function returns normally), so other
backends are unaffected. The original claim fails — see the counterexample —
because the per-tool loop sits inside one `try`, so the error does not spare
the backend's remaining tools. -/
theorem saveTools_error_aborts_rest (embedFn : String → Except String (List ℚ))
    (oracle : IndexOracle) (model srv : String) (pre : List Tool) (bad : Tool)
    (post : List Tool) (store : VectorStore) (e : String)
    (hpre : ∀ t ∈ pre, ∃ v, embedFn (toolSearchableText t) = .ok v)
    (hbad : embedFn (toolSearchableText bad) = .error e) :
    saveToolsAsVectorEmbeddings embedFn oracle model srv (pre ++ bad :: post) store =
      saveToolsAsVectorEmbeddings embedFn oracle model srv pre store := by
  cases pre with
  | nil =>
    simp only [saveToolsAsVectorEmbeddings, List.nil_append]
    simp only [List.isEmpty_cons, List.isEmpty_nil, if_true]
    simp only [saveToolsLoop, hbad]
    rfl
  | cons t rest =>
    simp only [saveToolsAsVectorEmbeddings, List.cons_append, List.isEmpty_cons]
    exact saveToolsLoop_error_aborts embedFn oracle model srv bad post e hbad
      (t :: rest) store hpre

/-- C9 counterexample: saving `[alpha, beta]` where embedding `alpha` fails
and embedding `beta` would succeed stores nothing — `beta` is lost although
saving `[beta]` alone succeeds, contradicting the claim that an embed error
aborts the upsert for that one tool only. -/
theorem saveTools_abort_counterexample :
    (saveToolsAsVectorEmbeddings
        (fun s => if s = "beta db" then .ok [1] else .error "api down")
        ⟨true, true, true⟩ "m" "srv"
        [⟨"alpha", "da", ⟨[], []⟩⟩, ⟨"beta", "db", ⟨[], []⟩⟩]
        ⟨some 1, [], none⟩).records = [] ∧
      (saveToolsAsVectorEmbeddings
          (fun s => if s = "beta db" then .ok [1] else .error "api down")
          ⟨true, true, true⟩ "m" "srv" [⟨"beta", "db", ⟨[], []⟩⟩]
          ⟨some 1, [], none⟩).records =
        [⟨"tool", "srv:beta", "beta db", [1], 1, "m"⟩] :=
  ⟨rfl, rfl⟩

/-- Witness for C9 (amended): with `beta` before the failing `alpha`, the
run over both tools leaves exactly the store of the run over `beta`
alone. -/
theorem saveTools_error_aborts_rest_witness :
    saveToolsAsVectorEmbeddings
        (fun s => if s = "beta db" then .ok [1] else .error "api down")
        ⟨true, true, true⟩ "m" "srv"
        [⟨"beta", "db", ⟨[], []⟩⟩, ⟨"alpha", "da", ⟨[], []⟩⟩]
        ⟨some 1, [], none⟩ =
      saveToolsAsVectorEmbeddings
        (fun s => if s = "beta db" then .ok [1] else .error "api down")
        ⟨true, true, true⟩ "m" "srv" [⟨"beta", "db", ⟨[], []⟩⟩]
        ⟨some 1, [], none⟩ :=
  saveTools_error_aborts_rest
    (fun s => if s = "beta db" then .ok [1] else .error "api down")
    ⟨true, true, true⟩ "m" "srv" [⟨"beta", "db", ⟨[], []⟩⟩] ⟨"alpha", "da", ⟨[], []⟩⟩
    [] ⟨some 1, [], none⟩ "api down"
    (by
      intro t ht
      simp only [List.mem_singleton] at ht
      subst ht
      exact ⟨[1], rfl⟩)
    rfl
